import Mathlib

/-!
Verification of src/command.py from the exitmap repository.

The file shallowly embeds the two entry points of command.py:

* run_python_over_tor, which returns a closure that monkey-patches the
  process-wide socket.socket variable for the duration of one function call;
* the Command class, whose invoke_process reads the merged output of a
  spawned subprocess line by line, extracts torsocks port-disclosure lines,
  enqueues correlation events, and feeds each line to an optional callback,
  and whose execute runs invoke_process on a worker thread with a timeout.

Mutable process-wide state (socket.socket, the correlation queue, the
captured output buffers) is threaded explicitly through a state record, and
the sequence of observable actions (queue.put calls and callback calls) is
recorded in a trace so that ordering claims can be stated.
-/

namespace Exitmap

/-- Output lines, captured substrings and queue addresses are modelled as
lists of characters. -/
abbrev Line := List Char

/-- Exception classes that matter to command.py: the SOCKSv5Error class from
error.py, any other exception raised by user code, and the OSError that a
failing subprocess.Popen call raises. -/
inductive Exc
  | socks
  | other
  | spawn
deriving DecidableEq

/-- Observable result of one call to the closure returned by
run_python_over_tor: the value of socket.socket after the call, the
exception (if any) escaping the closure, and whether logger.info ran. -/
structure ClosureResult where
  sockAfter : Nat
  raised : Option Exc
  loggedInfo : Bool
deriving DecidableEq

/-- Shallow embedding of the closure built by run_python_over_tor
(command.py lines 41-64).  The process-wide variable socket.socket is
modelled as a Nat-valued variable (its value before the call is sockVar);
torsocks.torsocket is the value torsocket.  funcOutcome describes what the
wrapped function does: none means it returns normally, some e means it
raises e.  The assignments to torsocks.set_default_proxy, torsocks.queue and
torsocks.circ_id do not touch socket.socket and are omitted.

Source, line by line:
  orig_socket = socket.socket
  socket.socket = torsocks.torsocket
  try: func(*args)
  except error.SOCKSv5Error as err: logger.info(err); return
  socket.socket = orig_socket
Note that the restore statement is the last line of the closure body, after
the try/except block, and there is no finally clause. -/
def run_python_over_tor_closure (sockVar torsocket : Nat)
    (funcOutcome : Option Exc) : ClosureResult :=
  let orig_socket := sockVar
  let patched := torsocket
  match funcOutcome with
  | none =>
      -- func returned: fall through to socket.socket = orig_socket
      { sockAfter := orig_socket, raised := none, loggedInfo := false }
  | some Exc.socks =>
      -- except SOCKSv5Error: logger.info(err); return
      -- the early return skips the restore statement
      { sockAfter := patched, raised := none, loggedInfo := true }
  | some e =>
      -- unhandled exception: propagates, skipping the restore statement
      { sockAfter := patched, raised := some e, loggedInfo := false }

/-- C1: the claim states that socket.socket is restored before the closure
returns in all three cases (normal return, the caught SOCKSv5Error, any
other exception).  Evaluating the embedded closure shows the code restores
it only on normal return: on the caught SOCKSv5Error the early return skips
the restore statement, and on any other exception the restore statement is
likewise never reached, so socket.socket stays patched (value 1, not the
prior value 0) in both failure cases. -/
theorem run_python_over_tor_restores_only_on_normal_return :
    run_python_over_tor_closure 0 1 (some Exc.socks)
      = { sockAfter := 1, raised := none, loggedInfo := true } ∧
    run_python_over_tor_closure 0 1 (some Exc.other)
      = { sockAfter := 1, raised := some Exc.other, loggedInfo := false } ∧
    run_python_over_tor_closure 0 1 none
      = { sockAfter := 0, raised := none, loggedInfo := false } := by
  decide

/-! ### The output pattern matcher

command.py line 115 fixes the regular expression

  Connection on fd [0-9]+ originating from [^:]+:([0-9]\x7b1,5\x7d)

and applies util.extract_pattern(line, pattern) to every stripped output
line.  util.py is not part of the sources under verification, so the helper
is modelled from the spec. -/

/-- Literal text that opens the disclosure pattern, including the trailing
space before the file-descriptor digits. -/
def litConn : Line := ("Connection on fd ").toList

/-- Literal text between the file-descriptor digits and the host text,
including both surrounding spaces. -/
def litOrig : Line := (" originating from ").toList

/-- Predicate for the character class that may appear in the host part of a
disclosure line: any character other than a colon. -/
def notColon (c : Char) : Bool := c ≠ ':'

/-- Match a literal against the front of a string: stripLit lit s returns
some rest when s = lit ++ rest, and none otherwise. -/
def stripLit : Line → Line → Option Line
  | [], s => some s
  | _ :: _, [] => none
  | a :: as, b :: bs => if a = b then stripLit as bs else none

/-- Attempt to match the whole disclosure pattern at the front of s,
returning the captured port digits.  This follows the backtracking regex
step by step; for this pattern the greedy character classes admit no
successful backtracking (each is followed by a character they exclude), so
maximal munch via takeWhile is exact. -/
def matchAt (s : Line) : Option Line :=
  match stripLit litConn s with
  | none => none
  | some r1 =>
    let fd := r1.takeWhile Char.isDigit
    if fd = [] then none
    else
      match stripLit litOrig (r1.dropWhile Char.isDigit) with
      | none => none
      | some r2 =>
        let host := r2.takeWhile notColon
        if host = [] then none
        else
          match r2.dropWhile notColon with
          | [] => none
          | _ :: r3 =>
            let digits := r3.takeWhile Char.isDigit
            if digits = [] then none else some (digits.take 5)

/-- Scan left to right for the first position at which the disclosure
pattern matches, as re.search does, returning that match's capture group. -/
def reSearch : Line → Option Line
  | [] => none
  | c :: rest =>
    match matchAt (c :: rest) with
    | some p => some p
    | none => reSearch rest

/-- Modelled from the spec: util.extract_pattern(line, pattern) from the
repository's util.py, which is absent from the sources under verification.
Per the spec, the matcher applies the fixed disclosure regex to the line and
returns the first match's capture group, or none when the pattern does not
occur in the line; matching is pure and total. -/
def extract_pattern (line : Line) : Option Line := reSearch line

/-- Numeric value of a captured digit string, as Python int() computes it on
a string of decimal digits. -/
def digitsToNat (s : Line) : Nat :=
  s.foldl (fun n c => 10 * n + (c.toNat - 48)) 0

/-- Characters removed by the Python str.strip() default whitespace set:
space, tab, newline, carriage return, vertical tab and form feed. -/
def isStripChar (c : Char) : Bool :=
  c = ' ' || c = '\t' || c = '\n' || c = '\r' ||
  c = Char.ofNat 11 || c = Char.ofNat 12

/-- Python str.strip(): remove leading and trailing whitespace. -/
def pyStrip (l : Line) : Line :=
  ((l.dropWhile isStripChar).reverse.dropWhile isStripChar).reverse

/-! ### The Command class

State for one Command instance plus the process-wide socket variable.  The
__init__ fields queue, origsocket and circ_id are the parameters orig and
circ of the functions below together with the queue recorded in the trace;
stdout and stderr start as Python None. -/

/-- Result of the caller-supplied output callback: it either returns the
boolean keep_reading, or raises an exception.  The kill handle passed to the
callback in the source is not modelled (no claim depends on its effect). -/
inductive CbRes
  | ret (keepReading : Bool)
  | raiseExc (e : Exc)
deriving DecidableEq

/-- Observable actions performed by invoke_process, in order: a queue.put of
a correlation event (recording the circuit id, the address and port pair,
and the ambient value of socket.socket at the moment of the put), and a call
of the output callback on a stripped line. -/
inductive Action
  | put (circ : Nat) (addr : Line) (port : Nat) (sockAtPut : Nat)
  | cb (line : Line)
deriving DecidableEq

/-- Mutable state threaded through invoke_process: the process-wide
socket.socket variable, the trace of observable actions so far, and the
self.stdout / self.stderr fields (Python None is Option.none; they are only
assigned by process.communicate()). -/
structure RunState where
  sock : Nat
  trace : List Action
  stdout : Option (List Line)
  stderr : Option (List Line)
deriving DecidableEq

/-- State of a Command as __init__ leaves it (stdout and stderr are None,
nothing has been enqueued), with socket.socket currently holding sock. -/
def initState (sock : Nat) : RunState :=
  { sock := sock, trace := [], stdout := none, stderr := none }

/-- Address component of every enqueued correlation event, the constant
string 127.0.0.1 from command.py line 129. -/
def addr127 : Line := ("127.0.0.1").toList

/-- Port-disclosure block of invoke_process (command.py lines 122-130),
executed when the matcher found a port:
  tmpsock = socket.socket
  socket.socket = self.origsocket
  self.queue.put([self.circ_id, ("127.0.0.1", int(port))])
  socket.socket = tmpsock
The put action records the ambient socket.socket value in force while
queue.put runs. -/
def emit (st : RunState) (origsocket circ_id : Nat) (port : Nat) : RunState :=
  let tmpsock := st.sock
  let st1 : RunState := { st with sock := origsocket }
  let st2 : RunState :=
    { st1 with trace := st1.trace ++ [Action.put circ_id addr127 port st1.sock] }
  { st2 with sock := tmpsock }

/-- Result of the read loop: either the loop finished (break on end of
stream, or keep_reading became false), leaving the unread remainder of the
stream, or the callback raised and the exception aborts invoke_process. -/
inductive RunResult
  | done (st : RunState) (rest : List Line)
  | raised (e : Exc) (st : RunState) (rest : List Line)
deriving DecidableEq

/-- Read loop of invoke_process (command.py lines 106-132), for the case
that an output callback is present.  The merged output stream is the list
of raw lines the process emits; readline returning the empty string (end of
stream) is modelled by the end of the list, and the source's check
`if not line: break` is transcribed as the test against the empty raw line.
Each iteration strips the raw line, runs the pattern matcher, runs the
disclosure block when a port was found (Python truthiness: None and the
empty string are falsy), then calls the callback and continues while it
returns True. -/
def readLoop (origsocket circ_id : Nat) (cb : Line → CbRes) :
    List Line → RunState → RunResult
  | [], st => RunResult.done st []
  | rawLine :: rest, st =>
    if rawLine = [] then RunResult.done st (rawLine :: rest)
    else
      let line := pyStrip rawLine
      let port? := extract_pattern line
      let st1 :=
        match port? with
        | some port =>
            if port = [] then st else emit st origsocket circ_id (digitsToNat port)
        | none => st
      let st2 : RunState := { st1 with trace := st1.trace ++ [Action.cb line] }
      match cb line with
      | CbRes.ret true => readLoop origsocket circ_id cb rest st2
      | CbRes.ret false => RunResult.done st2 rest
      | CbRes.raiseExc e => RunResult.raised e st2 rest

/-- Result of invoke_process: it either runs to completion, or an exception
escapes it (a spawn failure from Popen, or an exception raised by the
callback).  The state at that moment is retained because the queue and
socket.socket are shared with the rest of the process. -/
inductive InvokeRes
  | finished (st : RunState)
  | raised (e : Exc) (st : RunState)
deriving DecidableEq

/-- Final statement of invoke_process (command.py line 136):
self.stdout, self.stderr = self.process.communicate().  With stderr merged
into stdout at spawn time, communicate returns the unread remainder of the
merged stream and None for stderr. -/
def communicate (st : RunState) (rest : List Line) : RunState :=
  { st with stdout := some rest, stderr := none }

/-- Shallow embedding of Command.invoke_process (command.py lines 83-136).
spawnOk tells whether subprocess.Popen succeeds; when it fails the OSError
escapes before anything else happens.  When no callback was set the read
loop is skipped entirely and communicate collects the whole stream.  When
the read loop finishes normally, communicate collects the unread remainder;
when the callback raised, the exception aborts invoke_process before
communicate, leaving stdout and stderr unassigned. -/
def invoke_process (origsocket circ_id : Nat) (cb : Option (Line → CbRes))
    (spawnOk : Bool) (lines : List Line) (st : RunState) : InvokeRes :=
  if spawnOk then
    match cb with
    | none => InvokeRes.finished (communicate st lines)
    | some f =>
      match readLoop origsocket circ_id f lines st with
      | RunResult.done st1 rest => InvokeRes.finished (communicate st1 rest)
      | RunResult.raised e st1 _ => InvokeRes.raised e st1
  else InvokeRes.raised Exc.spawn st

/-- State carried by an invoke_process result. -/
def InvokeRes.st : InvokeRes → RunState
  | InvokeRes.finished st => st
  | InvokeRes.raised _ st => st

/-- Result of execute as its caller observes it: either a normal return of
the pair (self.stdout, self.stderr) — with a flag recording whether the
timeout branch killed the process — or the AttributeError that
self.process.kill() raises when the worker had not yet assigned
self.process. -/
inductive ExecRes
  | returns (stdout stderr : Option (List Line)) (killedProcess : Bool)
  | raisesAttr
deriving DecidableEq

/-- Command builder step of execute (command.py line 146): the torsocks
wrapper is prepended to the caller's argument vector. -/
def build_command (command : List String) : List String :=
  "torsocks" :: command

/-- Shallow embedding of Command.execute (command.py lines 138-170).  The
worker thread runs invoke_process; the temporary-file and environment
mutations do not affect any modelled state and are omitted.  Thread
semantics are made explicit through three scheduling parameters:

* workerDoneInTime — whether the worker finished within thread.join(timeout).
  If the worker target raised, the Thread machinery catches and reports the
  exception, so join still returns normally and execute reads whatever
  self.stdout and self.stderr hold (still None when communicate never ran).
* processAssigned — in the timeout branch, whether Popen had already
  assigned self.process when execute reaches self.process.kill(); if not,
  kill is attempted on None and an AttributeError escapes execute.
* killCutoff — killing the process ends its output stream, so the worker,
  joined without bound after the kill, observes only a prefix of the stream
  (the first killCutoff lines) before readline reports end of stream. -/
def execute (origsocket circ_id : Nat) (cb : Option (Line → CbRes))
    (spawnOk : Bool) (lines : List Line) (st : RunState)
    (workerDoneInTime processAssigned : Bool) (killCutoff : Nat) : ExecRes :=
  if workerDoneInTime then
    match invoke_process origsocket circ_id cb spawnOk lines st with
    | InvokeRes.finished st1 => ExecRes.returns st1.stdout st1.stderr false
    | InvokeRes.raised _ st1 => ExecRes.returns st1.stdout st1.stderr false
  else
    if processAssigned then
      match invoke_process origsocket circ_id cb spawnOk
          (lines.take killCutoff) st with
      | InvokeRes.finished st1 => ExecRes.returns st1.stdout st1.stderr true
      | InvokeRes.raised _ st1 => ExecRes.returns st1.stdout st1.stderr true
    else ExecRes.raisesAttr

/-! ### List lemmas used by the matcher proofs -/

theorem takeWhile_app_of_all {α : Type} (p : α → Bool) (xs ys : List α)
    (h : ∀ x ∈ xs, p x = true) :
    (xs ++ ys).takeWhile p = xs ++ ys.takeWhile p := by
  induction xs with
  | nil => simp
  | cons a as ih =>
    have ha : p a = true := h a (List.mem_cons_self a as)
    have ih2 := ih (fun x hx => h x (List.mem_cons_of_mem a hx))
    simp [List.takeWhile_cons, ha, ih2]

theorem dropWhile_app_of_all {α : Type} (p : α → Bool) (xs ys : List α)
    (h : ∀ x ∈ xs, p x = true) :
    (xs ++ ys).dropWhile p = ys.dropWhile p := by
  induction xs with
  | nil => simp
  | cons a as ih =>
    have ha : p a = true := h a (List.mem_cons_self a as)
    have ih2 := ih (fun x hx => h x (List.mem_cons_of_mem a hx))
    simp [List.dropWhile_cons, ha, ih2]

theorem takeWhile_cons_of_neg {α : Type} (p : α → Bool) (x : α) (xs : List α)
    (h : p x = false) : (x :: xs).takeWhile p = [] := by
  simp [List.takeWhile_cons, h]

theorem dropWhile_cons_of_neg {α : Type} (p : α → Bool) (x : α) (xs : List α)
    (h : p x = false) : (x :: xs).dropWhile p = x :: xs := by
  simp [List.dropWhile_cons, h]

theorem takeWhile_of_all {α : Type} (p : α → Bool) (xs : List α)
    (h : ∀ x ∈ xs, p x = true) : xs.takeWhile p = xs := by
  have := takeWhile_app_of_all p xs [] h
  simpa using this

theorem takeWhile_ne_nil_inv {α : Type} (p : α → Bool) (l : List α)
    (h : l.takeWhile p ≠ []) : ∃ y ys, l = y :: ys ∧ p y = true := by
  cases l with
  | nil => simp at h
  | cons a as =>
    cases hpa : p a with
    | false => simp [List.takeWhile_cons, hpa] at h
    | true => exact ⟨a, as, rfl, hpa⟩

theorem dropWhile_cons_head {α : Type} (p : α → Bool) (l : List α) (y : α)
    (ys : List α) (h : l.dropWhile p = y :: ys) : p y = false := by
  induction l with
  | nil => simp at h
  | cons a as ih =>
    cases hpa : p a with
    | false =>
      rw [dropWhile_cons_of_neg p a as hpa] at h
      cases h
      exact hpa
    | true =>
      rw [List.dropWhile_cons, if_pos (by simp [hpa])] at h
      exact ih h

theorem takeOfLenLe {α : Type} : ∀ (l : List α) (n : Nat),
    l.length ≤ n → l.take n = l := by
  intro l
  induction l with
  | nil => intro n _; simp
  | cons a as ih =>
    intro n h
    cases n with
    | zero => simp at h
    | succ m =>
      simp only [List.take_succ_cons]
      rw [ih m (Nat.le_of_succ_le_succ (by simpa using h))]

/-! ### Lemmas about stripLit -/

theorem stripLit_append (l r : Line) : stripLit l (l ++ r) = some r := by
  induction l with
  | nil => rfl
  | cons a as ih => simp [stripLit, ih]

theorem stripLit_some : ∀ (l s r : Line), stripLit l s = some r → s = l ++ r := by
  intro l
  induction l with
  | nil =>
    intro s r h
    cases h
    rfl
  | cons a as ih =>
    intro s r h
    cases s with
    | nil => cases h
    | cons b bs =>
      by_cases hab : a = b
      · subst hab
        rw [stripLit, if_pos rfl] at h
        rw [List.cons_append, ih bs r h]
      · rw [stripLit, if_neg hab] at h
        cases h

/-! ### Characterization of the output pattern matcher -/

/-- Concrete heads of the pattern literals, used to stop the greedy
character classes at the right place. -/
theorem litOrig_eq : litOrig = ' ' :: ("originating from ").toList := by decide

/-- Well-formed disclosure line content: a nonempty all-digit file
descriptor, a nonempty host text containing no colon, and a port of one to
five decimal digits. -/
def wfDisclosure (fd host port : Line) : Prop :=
  fd ≠ [] ∧ (∀ c ∈ fd, c.isDigit = true) ∧
  host ≠ [] ∧ (∀ c ∈ host, c ≠ ':') ∧
  port ≠ [] ∧ port.length ≤ 5 ∧ (∀ c ∈ port, c.isDigit = true)

/-- A full disclosure line of the documented shape
Connection on fd N originating from host:port. -/
def mkDisclosure (fd host port : Line) : Line :=
  litConn ++ fd ++ litOrig ++ host ++ ':' :: port

/-- A line contains an occurrence of the disclosure pattern: somewhere in it
the literal text is followed by a nonempty digit run, the second literal, a
nonempty colon-free run, a colon and at least one digit. -/
def HasDisclosure (line : Line) : Prop :=
  ∃ pre fd host d rest,
    line = pre ++ litConn ++ fd ++ litOrig ++ host ++ ':' :: d :: rest ∧
    fd ≠ [] ∧ (∀ c ∈ fd, c.isDigit = true) ∧
    host ≠ [] ∧ (∀ c ∈ host, c ≠ ':') ∧ d.isDigit = true

theorem matchAt_mk (fd host port : Line)
    (hfd : fd ≠ []) (hfdd : ∀ c ∈ fd, c.isDigit = true)
    (hh : host ≠ []) (hhc : ∀ c ∈ host, c ≠ ':')
    (hp : port ≠ []) (hp5 : port.length ≤ 5)
    (hpd : ∀ c ∈ port, c.isDigit = true) :
    matchAt (litConn ++ (fd ++ (litOrig ++ (host ++ ':' :: port)))) = some port := by
  have hhc2 : ∀ c ∈ host, notColon c = true := by
    intro c hc
    simp [notColon, hhc c hc]
  have hspace : Char.isDigit ' ' = false := by decide
  have hcolon : notColon ':' = false := by decide
  have t1 : (litOrig ++ (host ++ ':' :: port)).takeWhile Char.isDigit = [] := by
    rw [litOrig_eq, List.cons_append, takeWhile_cons_of_neg Char.isDigit ' ' _ hspace]
  have t2 : (litOrig ++ (host ++ ':' :: port)).dropWhile Char.isDigit
      = litOrig ++ (host ++ ':' :: port) := by
    conv_lhs => rw [litOrig_eq, List.cons_append,
      dropWhile_cons_of_neg Char.isDigit ' ' _ hspace]
    rw [litOrig_eq, List.cons_append]
  have m1 : (fd ++ (litOrig ++ (host ++ ':' :: port))).takeWhile Char.isDigit = fd := by
    rw [takeWhile_app_of_all Char.isDigit fd _ hfdd, t1, List.append_nil]
  have m2 : (fd ++ (litOrig ++ (host ++ ':' :: port))).dropWhile Char.isDigit
      = litOrig ++ (host ++ ':' :: port) := by
    rw [dropWhile_app_of_all Char.isDigit fd _ hfdd, t2]
  have n1 : (host ++ ':' :: port).takeWhile notColon = host := by
    rw [takeWhile_app_of_all notColon host _ hhc2,
      takeWhile_cons_of_neg notColon ':' _ hcolon, List.append_nil]
  have n2 : (host ++ ':' :: port).dropWhile notColon = ':' :: port := by
    rw [dropWhile_app_of_all notColon host _ hhc2,
      dropWhile_cons_of_neg notColon ':' _ hcolon]
  unfold matchAt
  rw [stripLit_append]
  simp only []
  rw [m1, if_neg hfd, m2, stripLit_append]
  simp only []
  rw [n1, if_neg hh, n2]
  simp only []
  rw [takeWhile_of_all Char.isDigit port hpd, if_neg hp, takeOfLenLe port 5 hp5]

theorem reSearch_of_matchAt (s p : Line) (h : matchAt s = some p) :
    reSearch s = some p := by
  cases s with
  | nil =>
    have : matchAt ([] : Line) = none := by decide
    rw [this] at h
    cases h
  | cons c rest =>
    unfold reSearch
    rw [h]

theorem matchAt_some (s p : Line) (h : matchAt s = some p) :
    ∃ fd host d rest,
      s = litConn ++ fd ++ litOrig ++ host ++ ':' :: d :: rest ∧
      fd ≠ [] ∧ (∀ c ∈ fd, c.isDigit = true) ∧
      host ≠ [] ∧ (∀ c ∈ host, c ≠ ':') ∧ d.isDigit = true := by
  unfold matchAt at h
  cases h1 : stripLit litConn s with
  | none => rw [h1] at h; cases h
  | some r1 =>
    rw [h1] at h
    simp only [] at h
    by_cases hfd : r1.takeWhile Char.isDigit = []
    · rw [if_pos hfd] at h; cases h
    rw [if_neg hfd] at h
    cases h2 : stripLit litOrig (r1.dropWhile Char.isDigit) with
    | none => rw [h2] at h; cases h
    | some r2 =>
      rw [h2] at h
      simp only [] at h
      by_cases hh : r2.takeWhile notColon = []
      · rw [if_pos hh] at h; cases h
      rw [if_neg hh] at h
      cases h3 : r2.dropWhile notColon with
      | nil => rw [h3] at h; cases h
      | cons c r3 =>
        rw [h3] at h
        simp only [] at h
        by_cases hdig : r3.takeWhile Char.isDigit = []
        · rw [if_pos hdig] at h; cases h
        obtain ⟨d, rest, hr3, hd⟩ := takeWhile_ne_nil_inv Char.isDigit r3 hdig
        have hcol : notColon c = false := dropWhile_cons_head notColon r2 c r3 h3
        have hceq : c = ':' := by
          by_contra hne
          simp [notColon, hne] at hcol
        have hs1 : s = litConn ++ r1 := stripLit_some litConn s r1 h1
        have hdw : r1.dropWhile Char.isDigit = litOrig ++ r2 :=
          stripLit_some litOrig _ r2 h2
        have er2 : r2 = r2.takeWhile notColon ++ ':' :: d :: rest := by
          conv_lhs => rw [← List.takeWhile_append_dropWhile notColon r2]
          rw [h3, hceq, hr3]
        have er1 : r1 = r1.takeWhile Char.isDigit ++ (litOrig ++ r2) := by
          conv_lhs => rw [← List.takeWhile_append_dropWhile Char.isDigit r1]
          rw [hdw]
        refine ⟨r1.takeWhile Char.isDigit, r2.takeWhile notColon, d, rest, ?_, hfd, ?_, hh, ?_, hd⟩
        · conv_lhs => rw [hs1, er1, er2]
          simp [List.append_assoc]
        · intro x hx
          exact List.mem_takeWhile_imp hx
        · intro x hx
          have := List.mem_takeWhile_imp hx
          simpa [notColon] using this

theorem reSearch_some : ∀ (s p : Line), reSearch s = some p →
    ∃ pre suf, s = pre ++ suf ∧ matchAt suf = some p := by
  intro s
  induction s with
  | nil => intro p h; cases h
  | cons c rest ih =>
    intro p h
    unfold reSearch at h
    cases hm : matchAt (c :: rest) with
    | some q =>
      rw [hm] at h
      cases h
      exact ⟨[], c :: rest, rfl, hm⟩
    | none =>
      rw [hm] at h
      obtain ⟨pre, suf, hs, hmm⟩ := ih p h
      exact ⟨c :: pre, suf, by rw [List.cons_append, hs], hmm⟩

/-- C8: the Output Pattern Matcher is a pure total function on lines (it is
a Lean function).  First part: whenever it yields a port, the line contains
a disclosure occurrence, so on every line with no such occurrence it yields
none.  Second part: on every well-formed disclosure line, with the host
text any nonempty colon-free string, it yields exactly the port digits. -/
theorem extract_pattern_characterization :
    (∀ line p, extract_pattern line = some p → HasDisclosure line) ∧
    (∀ fd host port, wfDisclosure fd host port →
      extract_pattern (mkDisclosure fd host port) = some port ∧
      (extract_pattern (mkDisclosure fd host port)).map digitsToNat
        = some (digitsToNat port)) := by
  constructor
  · intro line p h
    obtain ⟨pre, suf, hs, hm⟩ := reSearch_some line p h
    obtain ⟨fd, host, d, rest, hsuf, hfd, hfdd, hh, hhc, hd⟩ := matchAt_some suf p hm
    exact ⟨pre, fd, host, d, rest, by rw [hs, hsuf]; simp [List.append_assoc],
      hfd, hfdd, hh, hhc, hd⟩
  · intro fd host port hwf
    obtain ⟨hfd, hfdd, hh, hhc, hp, hp5, hpd⟩ := hwf
    have hm := matchAt_mk fd host port hfd hfdd hh hhc hp hp5 hpd
    have : extract_pattern (mkDisclosure fd host port) = some port := by
      unfold extract_pattern mkDisclosure
      apply reSearch_of_matchAt
      simpa [List.append_assoc] using hm
    exact ⟨this, by rw [this]; rfl⟩

/-- A raw output line of the concrete scenario from the spec, with its
trailing newline as readline delivers it. -/
def discLineRaw : Line :=
  ("Connection on fd 7 originating from 10.0.0.1:54321" ++ "\n").toList

/-- Witness for C8 at concrete inputs: the matcher applied to the concrete
scenario line certifies a disclosure occurrence, and the well-formed shape
built from fd 7, host 10.0.0.1 and port 54321 is matched to 54321. -/
theorem extract_pattern_characterization_witness :
    HasDisclosure (pyStrip discLineRaw) ∧
    (extract_pattern (mkDisclosure ("7").toList ("10.0.0.1").toList
        ("54321").toList) = some (("54321").toList) ∧
      (extract_pattern (mkDisclosure ("7").toList ("10.0.0.1").toList
        ("54321").toList)).map digitsToNat = some 54321) :=
  ⟨extract_pattern_characterization.1 (pyStrip discLineRaw) (("54321").toList)
      (by decide),
   extract_pattern_characterization.2 ("7").toList ("10.0.0.1").toList
      ("54321").toList (by unfold wfDisclosure; decide)⟩

/-! ### Structure of the read loop -/

/-- State carried by a read-loop result. -/
def RunResult.state : RunResult → RunState
  | RunResult.done st _ => st
  | RunResult.raised _ st _ => st

/-- Actions contributed by processing one nonempty raw line: the optional
queue.put for a disclosed port (performed with socket.socket holding the
original constructor), followed by the callback on the stripped line. -/
def lineBlock (origsocket circ_id : Nat) (rawLine : Line) : List Action :=
  (match extract_pattern (pyStrip rawLine) with
   | some port =>
       if port = [] then []
       else [Action.put circ_id addr127 (digitsToNat port) origsocket]
   | none => []) ++ [Action.cb (pyStrip rawLine)]

/-- The disclosure block appends one put action recording origsocket as the
ambient socket value, and leaves every other state component, in particular
socket.socket, exactly as it found it. -/
theorem emit_eq (st : RunState) (origsocket circ_id port : Nat) :
    emit st origsocket circ_id port
      = { st with trace := st.trace ++ [Action.put circ_id addr127 port origsocket] } :=
  rfl

theorem readLoop_cons_cont (origsocket circ_id : Nat) (cb : Line → CbRes)
    (x : Line) (rest : List Line) (st : RunState)
    (hx : ¬ x = []) (hcb : cb (pyStrip x) = CbRes.ret true) :
    readLoop origsocket circ_id cb (x :: rest) st
      = readLoop origsocket circ_id cb rest
          { st with trace := st.trace ++ lineBlock origsocket circ_id x } := by
  conv_lhs => unfold readLoop
  simp only [if_neg hx, hcb]
  cases hport : extract_pattern (pyStrip x) with
  | none => simp [lineBlock, hport]
  | some port =>
    by_cases hp : port = []
    · simp [lineBlock, hport, hp]
    · simp [lineBlock, hport, hp, emit_eq, List.append_assoc]

theorem readLoop_cons_stop (origsocket circ_id : Nat) (cb : Line → CbRes)
    (x : Line) (rest : List Line) (st : RunState)
    (hx : ¬ x = []) (hcb : cb (pyStrip x) = CbRes.ret false) :
    readLoop origsocket circ_id cb (x :: rest) st
      = RunResult.done
          { st with trace := st.trace ++ lineBlock origsocket circ_id x } rest := by
  unfold readLoop
  simp only [if_neg hx, hcb]
  cases hport : extract_pattern (pyStrip x) with
  | none => simp [lineBlock, hport]
  | some port =>
    by_cases hp : port = []
    · simp [lineBlock, hport, hp]
    · simp [lineBlock, hport, hp, emit_eq, List.append_assoc]

theorem readLoop_cons_raise (origsocket circ_id : Nat) (cb : Line → CbRes)
    (x : Line) (rest : List Line) (st : RunState) (e : Exc)
    (hx : ¬ x = []) (hcb : cb (pyStrip x) = CbRes.raiseExc e) :
    readLoop origsocket circ_id cb (x :: rest) st
      = RunResult.raised e
          { st with trace := st.trace ++ lineBlock origsocket circ_id x } rest := by
  unfold readLoop
  simp only [if_neg hx, hcb]
  cases hport : extract_pattern (pyStrip x) with
  | none => simp [lineBlock, hport]
  | some port =>
    by_cases hp : port = []
    · simp [lineBlock, hport, hp]
    · simp [lineBlock, hport, hp, emit_eq, List.append_assoc]

/-- Master structure lemma: whatever the callback does, the state the read
loop ends in (also when the callback raised) extends the initial trace by
the per-line blocks of the prefix of the stream it consumed, in stream
order, and leaves socket.socket, stdout and stderr untouched. -/
theorem readLoop_shape (origsocket circ_id : Nat) (cb : Line → CbRes) :
    ∀ (lines : List Line) (st : RunState), ∃ k,
      (readLoop origsocket circ_id cb lines st).state
        = { st with trace :=
              st.trace ++ (lines.take k).flatMap (lineBlock origsocket circ_id) } := by
  intro lines
  induction lines with
  | nil =>
    intro st
    exact ⟨0, by simp [readLoop, RunResult.state]⟩
  | cons x rest ih =>
    intro st
    by_cases hx : x = []
    · refine ⟨0, ?_⟩
      subst hx
      simp [readLoop, RunResult.state]
    · cases hcb : cb (pyStrip x) with
      | ret b =>
        cases b with
        | true =>
          rw [readLoop_cons_cont origsocket circ_id cb x rest st hx hcb]
          obtain ⟨k, hk⟩ :=
            ih { st with trace := st.trace ++ lineBlock origsocket circ_id x }
          refine ⟨k + 1, ?_⟩
          rw [hk]
          simp [List.take_succ_cons, List.flatMap_cons, List.append_assoc]
        | false =>
          rw [readLoop_cons_stop origsocket circ_id cb x rest st hx hcb]
          exact ⟨1, by simp [RunResult.state, List.take_succ_cons, List.flatMap_cons]⟩
      | raiseExc e =>
        rw [readLoop_cons_raise origsocket circ_id cb x rest st e hx hcb]
        exact ⟨1, by simp [RunResult.state, List.take_succ_cons, List.flatMap_cons]⟩

/-- While the callback keeps returning True on nonempty lines, the read loop
marches through them in order, accumulating their blocks. -/
theorem readLoop_all_cont (origsocket circ_id : Nat) (cb : Line → CbRes) :
    ∀ (xs : List Line) (st : RunState),
      (∀ x ∈ xs, x ≠ []) → (∀ x ∈ xs, cb (pyStrip x) = CbRes.ret true) →
      ∀ (ys : List Line),
        readLoop origsocket circ_id cb (xs ++ ys) st
          = readLoop origsocket circ_id cb ys
              { st with trace :=
                  st.trace ++ xs.flatMap (lineBlock origsocket circ_id) } := by
  intro xs
  induction xs with
  | nil =>
    intro st _ _ ys
    simp
  | cons x rest ih =>
    intro st hne hcont ys
    rw [List.cons_append,
      readLoop_cons_cont origsocket circ_id cb x (rest ++ ys) st
        (hne x (List.mem_cons_self x rest)) (hcont x (List.mem_cons_self x rest)),
      ih { st with trace := st.trace ++ lineBlock origsocket circ_id x }
        (fun y hy => hne y (List.mem_cons_of_mem x hy))
        (fun y hy => hcont y (List.mem_cons_of_mem x hy)) ys]
    simp [List.flatMap_cons, List.append_assoc]

/-- Trace and socket state of an invoke_process result: the trace grows by
the blocks of the consumed prefix of the stream, and socket.socket ends
where it started. -/
theorem invoke_process_state (origsocket circ_id : Nat)
    (cb : Option (Line → CbRes)) (spawnOk : Bool) (lines : List Line)
    (st : RunState) : ∃ k,
      ((invoke_process origsocket circ_id cb spawnOk lines st).st).trace
          = st.trace ++ ((lines.take k).flatMap (lineBlock origsocket circ_id)) ∧
      ((invoke_process origsocket circ_id cb spawnOk lines st).st).sock = st.sock := by
  unfold invoke_process
  cases spawnOk with
  | false => exact ⟨0, by simp [InvokeRes.st]⟩
  | true =>
    cases cb with
    | none => exact ⟨0, by simp [InvokeRes.st, communicate]⟩
    | some f =>
      obtain ⟨k, hk⟩ := readLoop_shape origsocket circ_id f lines st
      refine ⟨k, ?_⟩
      cases hr : readLoop origsocket circ_id f lines st with
      | done st1 rest =>
        rw [hr] at hk
        simp only [RunResult.state] at hk
        simp [InvokeRes.st, communicate, hr, hk]
      | raised e st1 rest =>
        rw [hr] at hk
        simp only [RunResult.state] at hk
        simp [InvokeRes.st, hr, hk]

/-- Correlation events recorded in a trace, as (circuit, address, port)
triples in trace order. -/
def putsOf (tr : List Action) : List (Nat × Line × Nat) :=
  tr.filterMap (fun a => match a with
    | Action.put c ad p _ => some (c, ad, p)
    | Action.cb _ => none)

/-- Every action of a per-line block is either the put built from the
instance's circuit id, the constant address and the original socket, or a
callback action. -/
theorem mem_lineBlock (origsocket circ_id : Nat) (rawLine : Line) (a : Action)
    (ha : a ∈ lineBlock origsocket circ_id rawLine) :
    (∃ port, a = Action.put circ_id addr127 port origsocket) ∨
    (∃ l, a = Action.cb l) := by
  unfold lineBlock at ha
  rw [List.mem_append] at ha
  cases ha with
  | inr h =>
    right
    exact ⟨pyStrip rawLine, by simpa using h⟩
  | inl h =>
    cases hport : extract_pattern (pyStrip rawLine) with
    | none => rw [hport] at h; simp at h
    | some port =>
      rw [hport] at h
      simp only [] at h
      by_cases hp : port = []
      · rw [if_pos hp] at h; simp at h
      · rw [if_neg hp] at h
        left
        exact ⟨digitsToNat port, by simpa using h⟩

/-! ### The captured port digits are never empty -/

theorem matchAt_ne_nil (s p : Line) (h : matchAt s = some p) : p ≠ [] := by
  unfold matchAt at h
  cases h1 : stripLit litConn s with
  | none => rw [h1] at h; cases h
  | some r1 =>
    rw [h1] at h
    simp only [] at h
    by_cases hfd : r1.takeWhile Char.isDigit = []
    · rw [if_pos hfd] at h; cases h
    rw [if_neg hfd] at h
    cases h2 : stripLit litOrig (r1.dropWhile Char.isDigit) with
    | none => rw [h2] at h; cases h
    | some r2 =>
      rw [h2] at h
      simp only [] at h
      by_cases hh : r2.takeWhile notColon = []
      · rw [if_pos hh] at h; cases h
      rw [if_neg hh] at h
      cases h3 : r2.dropWhile notColon with
      | nil => rw [h3] at h; cases h
      | cons c r3 =>
        rw [h3] at h
        simp only [] at h
        by_cases hdig : r3.takeWhile Char.isDigit = []
        · rw [if_pos hdig] at h; cases h
        rw [if_neg hdig] at h
        obtain ⟨d, ds, hr3, hd⟩ := takeWhile_ne_nil_inv Char.isDigit r3 hdig
        cases h
        rw [hr3]
        simp [List.takeWhile_cons, hd]

theorem reSearch_ne_nil : ∀ (s p : Line), reSearch s = some p → p ≠ [] := by
  intro s
  induction s with
  | nil => intro p h; cases h
  | cons c rest ih =>
    intro p h
    unfold reSearch at h
    cases hm : matchAt (c :: rest) with
    | some q =>
      rw [hm] at h
      cases h
      exact matchAt_ne_nil _ _ hm
    | none =>
      rw [hm] at h
      exact ih p h

theorem extract_pattern_ne_nil (line p : Line)
    (h : extract_pattern line = some p) : p ≠ [] :=
  reSearch_ne_nil line p h

/-! ### Events recorded by a run -/

theorem putsOf_append (t1 t2 : List Action) :
    putsOf (t1 ++ t2) = putsOf t1 ++ putsOf t2 :=
  List.filterMap_append t1 t2 _

theorem putsOf_lineBlock (origsocket circ_id : Nat) (l : Line) :
    putsOf (lineBlock origsocket circ_id l)
      = ((extract_pattern (pyStrip l)).map
          (fun p => (circ_id, addr127, digitsToNat p))).toList := by
  unfold lineBlock putsOf
  cases hport : extract_pattern (pyStrip l) with
  | none => simp
  | some port =>
    have hp : port ≠ [] := extract_pattern_ne_nil _ _ hport
    simp [hp]

theorem putsOf_flatMap (origsocket circ_id : Nat) (lines : List Line) :
    putsOf (lines.flatMap (lineBlock origsocket circ_id))
      = lines.filterMap (fun l => (extract_pattern (pyStrip l)).map
          (fun p => (circ_id, addr127, digitsToNat p))) := by
  induction lines with
  | nil => rfl
  | cons x rest ih =>
    rw [List.flatMap_cons, putsOf_append, putsOf_lineBlock, ih,
      List.filterMap_cons]
    cases hport : extract_pattern (pyStrip x) with
    | none => simp [hport]
    | some port => simp [hport]

/-- When the callback keeps returning True on every (nonempty) line of the
stream, the whole stream is consumed, with communicate left an empty
remainder. -/
theorem invoke_all_cont (origsocket circ_id sock : Nat) (cb : Line → CbRes)
    (lines : List Line) (h1 : ∀ x ∈ lines, x ≠ [])
    (h2 : ∀ x ∈ lines, cb (pyStrip x) = CbRes.ret true) :
    invoke_process origsocket circ_id (some cb) true lines (initState sock)
      = InvokeRes.finished
          { sock := sock, trace := lines.flatMap (lineBlock origsocket circ_id),
            stdout := some [], stderr := none } := by
  unfold invoke_process
  simp only []
  have hr := readLoop_all_cont origsocket circ_id cb lines (initState sock) h1 h2 []
  rw [List.append_nil] at hr
  rw [hr]
  simp [readLoop, communicate, initState]

/-! ### Claim theorems for the Command class -/

/-- C2: the claim states that a spawn failure propagates to the caller of
execute.  It does not: Popen runs on the worker thread, whose machinery
catches the exception, so execute returns normally with the still-unset
(None, None) buffers.  This closed run evaluates execute on a failing spawn
and shows the normal return, distinct from any raising outcome. -/
theorem spawn_failure_returns_normally :
    execute 5 9 none false [discLineRaw] (initState 0) true true 0
      = ExecRes.returns none none false ∧
    ExecRes.returns (Option.none) (Option.none) false ≠ ExecRes.raisesAttr := by
  decide

/-- C2 (amended): when the command cannot be spawned, the OSError is
confined to the worker thread; execute returns (None, None) without raising
and without killing anything, for every callback, stream and instance
state. -/
theorem spawn_failure_swallowed (origsocket circ_id sock killCutoff : Nat)
    (cb : Option (Line → CbRes)) (lines : List Line) (pa : Bool) :
    execute origsocket circ_id cb false lines (initState sock) true pa killCutoff
      = ExecRes.returns none none false := by
  unfold execute invoke_process
  simp [initState, InvokeRes.st]

/-- C3: the claim promises exactly N enqueued events for N disclosure lines
on every invocation, with only the forwarding to the callback conditional
on a callback being present.  But the whole read loop is guarded by the
callback check: with no callback this run over a stream containing one
disclosure line enqueues nothing at all (empty trace), although the matcher
finds the port on that line. -/
theorem no_callback_no_events :
    invoke_process 5 9 none true [discLineRaw] (initState 0)
      = InvokeRes.finished
          { sock := 0, trace := [], stdout := some [discLineRaw], stderr := none } ∧
    extract_pattern (pyStrip discLineRaw) = some (("54321").toList) := by
  decide

/-- C3 (amended): when an output callback is present and keeps reading,
the enqueued events are exactly the disclosure lines of the stream, in
emission order, each pairing the instance's circuit id with the port
extracted from that line (address 127.0.0.1); when no callback is present
the output is never scanned and no event is enqueued. -/
theorem events_match_disclosure_lines (origsocket circ_id sock : Nat)
    (cb : Line → CbRes) (lines : List Line)
    (h1 : ∀ x ∈ lines, x ≠ [])
    (h2 : ∀ x ∈ lines, cb (pyStrip x) = CbRes.ret true) :
    putsOf ((invoke_process origsocket circ_id (some cb) true lines
        (initState sock)).st).trace
      = lines.filterMap (fun l => (extract_pattern (pyStrip l)).map
          (fun p => (circ_id, addr127, digitsToNat p))) ∧
    ((invoke_process origsocket circ_id none true lines (initState sock)).st).trace
      = [] := by
  constructor
  · rw [invoke_all_cont origsocket circ_id sock cb lines h1 h2]
    simp only [InvokeRes.st]
    exact putsOf_flatMap origsocket circ_id lines
  · rfl

/-- Witness for C3 (amended) on a concrete two-line stream with one
disclosure line: exactly one event, carrying circuit 9 and port 54321. -/
theorem events_match_disclosure_lines_witness :
    putsOf ((invoke_process 5 9 (some (fun _ => CbRes.ret true)) true
        [discLineRaw, ("hello").toList] (initState 0)).st).trace
      = [(9, addr127, 54321)] ∧
    ((invoke_process 5 9 none true [discLineRaw, ("hello").toList]
        (initState 0)).st).trace = [] := by
  have h := events_match_disclosure_lines 5 9 0 (fun _ => CbRes.ret true)
      [discLineRaw, ("hello").toList] (by decide) (fun x _ => rfl)
  constructor
  · rw [h.1]; decide
  · exact h.2

/-- C4: with the process spawned, execute never raises when the worker
finishes within the timeout (also when the worker target itself raised: the
thread machinery swallows it), and on timeout expiry with the process
handle assigned, execute kills the process (flag true), joins the worker,
and returns exactly the stdout/stderr buffers the killed worker captured,
i.e. those of the run over the stream prefix that ended at the kill
point. -/
theorem execute_kills_and_returns_on_timeout (origsocket circ_id sock killCutoff : Nat)
    (cb : Option (Line → CbRes)) (lines : List Line) :
    execute origsocket circ_id cb true lines (initState sock) true true killCutoff
        ≠ ExecRes.raisesAttr ∧
    execute origsocket circ_id cb true lines (initState sock) false true killCutoff
      = ExecRes.returns
          ((invoke_process origsocket circ_id cb true (lines.take killCutoff)
              (initState sock)).st).stdout
          ((invoke_process origsocket circ_id cb true (lines.take killCutoff)
              (initState sock)).st).stderr
          true := by
  constructor
  · unfold execute
    cases hres : invoke_process origsocket circ_id cb true lines (initState sock) with
    | finished st1 => simp [hres]
    | raised e st1 => simp [hres]
  · unfold execute
    cases hres : invoke_process origsocket circ_id cb true (lines.take killCutoff)
        (initState sock) with
    | finished st1 => simp [hres, InvokeRes.st]
    | raised e st1 => simp [hres, InvokeRes.st]

/-- C5: the claim states that a SOCKS error raised by the line callback is
treated as end-of-stream, logged, and not propagated.  invoke_process
contains no handler at all: the exception aborts it before communicate, so
the run ends in a raised result with stdout and stderr still None (nothing
logged, output never collected), instead of finishing with collected
output. -/
theorem callback_socks_error_aborts_run :
    invoke_process 5 9 (some (fun _ => CbRes.raiseExc Exc.socks)) true
        [discLineRaw] (initState 0)
      = InvokeRes.raised Exc.socks
          { sock := 0,
            trace := [Action.put 9 addr127 54321 5, Action.cb (pyStrip discLineRaw)],
            stdout := none, stderr := none } := by
  decide

/-- C5 (amended): when the callback raises the SOCKS error class on some
line, reading stops there, but the Supervisor neither catches nor logs it:
the exception aborts invoke_process before output collection, so the
buffers stay None; it fails to reach the caller of execute only because the
worker thread discards it, and execute returns (None, None). -/
theorem callback_socks_error_aborts (origsocket circ_id sock killCutoff : Nat)
    (cb : Line → CbRes) (xs : List Line) (l : Line) (ys : List Line)
    (hxs1 : ∀ x ∈ xs, x ≠ [])
    (hxs2 : ∀ x ∈ xs, cb (pyStrip x) = CbRes.ret true)
    (hl1 : ¬ l = []) (hl2 : cb (pyStrip l) = CbRes.raiseExc Exc.socks) :
    invoke_process origsocket circ_id (some cb) true (xs ++ l :: ys) (initState sock)
      = InvokeRes.raised Exc.socks
          { sock := sock,
            trace := (xs ++ [l]).flatMap (lineBlock origsocket circ_id),
            stdout := none, stderr := none } ∧
    execute origsocket circ_id (some cb) true (xs ++ l :: ys) (initState sock)
        true true killCutoff
      = ExecRes.returns none none false := by
  have hinv : invoke_process origsocket circ_id (some cb) true (xs ++ l :: ys)
      (initState sock)
      = InvokeRes.raised Exc.socks
          { sock := sock,
            trace := (xs ++ [l]).flatMap (lineBlock origsocket circ_id),
            stdout := none, stderr := none } := by
    unfold invoke_process
    simp only []
    rw [readLoop_all_cont origsocket circ_id cb xs (initState sock) hxs1 hxs2 (l :: ys),
      readLoop_cons_raise origsocket circ_id cb l ys _ Exc.socks hl1 hl2]
    simp [initState, List.flatMap_append]
  refine ⟨hinv, ?_⟩
  unfold execute
  rw [hinv]
  simp

/-- Witness for C5 (amended): a concrete run whose callback raises the
SOCKS error on the first line. -/
theorem callback_socks_error_aborts_witness :
    invoke_process 5 9 (some (fun _ => CbRes.raiseExc Exc.socks)) true
        ([] ++ discLineRaw :: []) (initState 0)
      = InvokeRes.raised Exc.socks
          { sock := 0,
            trace := ([] ++ [discLineRaw]).flatMap (lineBlock 5 9),
            stdout := none, stderr := none } ∧
    execute 5 9 (some (fun _ => CbRes.raiseExc Exc.socks)) true
        ([] ++ discLineRaw :: []) (initState 0) true true 0
      = ExecRes.returns none none false :=
  callback_socks_error_aborts 5 9 0 0 (fun _ => CbRes.raiseExc Exc.socks)
    [] discLineRaw []
    (by intro x hx; cases hx) (by intro x hx; cases hx) (by decide) rfl

/-- C6: output lines are processed strictly in stream order, and the
correlation event of a disclosure line is enqueued before that same line is
passed to the callback: the trace of every run (whatever the callback
returns or raises) is the concatenation, in stream order, of per-line
blocks, each consisting of the optional put for the line followed by the
callback action on that line. -/
theorem trace_blocks_in_order (origsocket circ_id sock : Nat)
    (cb : Line → CbRes) (lines : List Line) :
    ∃ k, ((invoke_process origsocket circ_id (some cb) true lines
        (initState sock)).st).trace
      = (lines.take k).flatMap (lineBlock origsocket circ_id) := by
  obtain ⟨k, hk, _⟩ :=
    invoke_process_state origsocket circ_id (some cb) true lines (initState sock)
  exact ⟨k, by simpa [initState] using hk⟩

/-- C7: when the callback keeps reading through the lines of xs and then
returns False on line l, reading stops: the trace holds exactly the blocks
of xs and l (so no line of ys is ever matched, enqueued or delivered), the
remainder ys is drained by communicate into stdout, and socket.socket ends
where it started. -/
theorem callback_false_stops_reading (origsocket circ_id sock : Nat)
    (cb : Line → CbRes) (xs : List Line) (l : Line) (ys : List Line)
    (hxs1 : ∀ x ∈ xs, x ≠ [])
    (hxs2 : ∀ x ∈ xs, cb (pyStrip x) = CbRes.ret true)
    (hl1 : ¬ l = []) (hl2 : cb (pyStrip l) = CbRes.ret false) :
    invoke_process origsocket circ_id (some cb) true (xs ++ l :: ys) (initState sock)
      = InvokeRes.finished
          { sock := sock,
            trace := (xs ++ [l]).flatMap (lineBlock origsocket circ_id),
            stdout := some ys, stderr := none } := by
  unfold invoke_process
  simp only []
  rw [readLoop_all_cont origsocket circ_id cb xs (initState sock) hxs1 hxs2 (l :: ys),
    readLoop_cons_stop origsocket circ_id cb l ys _ hl1 hl2]
  simp [communicate, initState, List.flatMap_append]

/-- Witness for C7: the callback declines after the first line; the second
line is a disclosure line, yet nothing of it reaches the trace and it is
returned unread in stdout. -/
theorem callback_false_stops_reading_witness :
    invoke_process 5 9 (some (fun _ => CbRes.ret false)) true
        ([] ++ ("hello").toList :: [discLineRaw]) (initState 0)
      = InvokeRes.finished
          { sock := 0,
            trace := [Action.cb (pyStrip (("hello").toList))],
            stdout := some [discLineRaw], stderr := none } := by
  have h := callback_false_stops_reading 5 9 0 (fun _ => CbRes.ret false)
    [] (("hello").toList) [discLineRaw]
    (by intro x hx; cases hx) (by intro x hx; cases hx) (by decide) rfl
  rw [h]
  decide

/-- C9: the disclosure block swaps in the original socket constructor
captured at construction time for exactly the duration of the put and then
reinstates the pre-emission value; consequently over any whole run — also
one started while socket.socket is monkey-patched to an arbitrary value —
socket.socket ends where it started, and every put in the trace carries
the instance's circuit id and was performed with socket.socket holding the
original constructor. -/
theorem events_use_captured_circuit_and_socket :
    (∀ (st : RunState) (origsocket circ_id port : Nat),
        (emit st origsocket circ_id port).sock = st.sock ∧
        (emit st origsocket circ_id port).trace
          = st.trace ++ [Action.put circ_id addr127 port origsocket]) ∧
    (∀ (origsocket circ_id sock : Nat) (cb : Option (Line → CbRes))
        (spawnOk : Bool) (lines : List Line),
        ((invoke_process origsocket circ_id cb spawnOk lines (initState sock)).st).sock
            = sock ∧
        (∀ a ∈ ((invoke_process origsocket circ_id cb spawnOk lines
              (initState sock)).st).trace,
          ∀ c ad p s, a = Action.put c ad p s → c = circ_id ∧ s = origsocket)) := by
  constructor
  · intro st origsocket circ_id port
    exact ⟨rfl, rfl⟩
  · intro origsocket circ_id sock cb spawnOk lines
    obtain ⟨k, hk, hs⟩ :=
      invoke_process_state origsocket circ_id cb spawnOk lines (initState sock)
    refine ⟨by simpa [initState] using hs, ?_⟩
    intro a ha c ad p s hput
    rw [hk] at ha
    simp only [initState, List.nil_append] at ha
    rw [List.mem_flatMap] at ha
    obtain ⟨l, _, hbl⟩ := ha
    cases mem_lineBlock origsocket circ_id l a hbl with
    | inl h =>
      obtain ⟨q, hq⟩ := h
      rw [hq] at hput
      injection hput with e1 e2 e3 e4
      exact ⟨e1.symm, e4.symm⟩
    | inr h =>
      obtain ⟨lc, hlc⟩ := h
      rw [hlc] at hput
      simp at hput

/-- Witness for C9: a run started with socket.socket patched to 0 while the
original constructor is 5; the single enqueued event was put with
socket.socket = 5, circuit 9, and the run ends with socket.socket = 0. -/
theorem events_use_captured_circuit_and_socket_witness :
    ((invoke_process 5 9 (some (fun _ => CbRes.ret true)) true [discLineRaw]
        (initState 0)).st).sock = 0 ∧
    (9 = 9 ∧ 5 = 5) :=
  ⟨(events_use_captured_circuit_and_socket.2 5 9 0
      (some (fun _ => CbRes.ret true)) true [discLineRaw]).1,
   (events_use_captured_circuit_and_socket.2 5 9 0
      (some (fun _ => CbRes.ret true)) true [discLineRaw]).2
      (Action.put 9 addr127 54321 5) (by decide) 9 addr127 54321 5 rfl⟩

/-- C10: the address component of every enqueued correlation event is the
constant 127.0.0.1, whatever host text appears in the disclosure lines of
the stream; only the port comes from the line. -/
theorem events_address_is_loopback (origsocket circ_id sock : Nat)
    (cb : Option (Line → CbRes)) (spawnOk : Bool) (lines : List Line) :
    ∀ a ∈ ((invoke_process origsocket circ_id cb spawnOk lines
        (initState sock)).st).trace,
      ∀ c ad p s, a = Action.put c ad p s → ad = addr127 := by
  intro a ha c ad p s hput
  obtain ⟨k, hk, _⟩ :=
    invoke_process_state origsocket circ_id cb spawnOk lines (initState sock)
  rw [hk] at ha
  simp only [initState, List.nil_append] at ha
  rw [List.mem_flatMap] at ha
  obtain ⟨l, _, hbl⟩ := ha
  cases mem_lineBlock origsocket circ_id l a hbl with
  | inl h =>
    obtain ⟨q, hq⟩ := h
    rw [hq] at hput
    injection hput with e1 e2 e3 e4
    exact e2.symm
  | inr h =>
    obtain ⟨lc, hlc⟩ := h
    rw [hlc] at hput
    simp at hput

/-- Witness for C10: the event of the concrete disclosure line (host text
10.0.0.1) carries the constant loopback address. -/
theorem events_address_is_loopback_witness :
    (("127.0.0.1").toList : Line) = addr127 :=
  events_address_is_loopback 5 9 0 (some (fun _ => CbRes.ret true)) true
    [discLineRaw] (Action.put 9 (("127.0.0.1").toList) 54321 5) (by decide)
    9 (("127.0.0.1").toList) 54321 5 rfl

end Exitmap
